import Mathlib

/-!
Shallow embedding of the transactional-ledger core (the design-patterns
banking service: interest strategies, bank accounts, commands, invoker).

Modelling conventions:
* JavaScript `number` amounts are modelled as `ℚ` (exact arithmetic; the
  spec declares "simple floating semantics" a non-goal).
* `uuid` / `Date` fields carry no logic; account ids are explicit `String`
  parameters and transaction ids / timestamps are omitted.
* The invoker's `Map<string, BankAccount>` is an insertion-ordered
  association list; commands hold account ids and look the account up at
  call time (the source holds direct object references into that map, so
  every lookup made by a command succeeds; theorems carry the
  corresponding `getAccount … = some _` hypotheses, and a missing account
  is modelled as a no-op).
* A thrown exception is modelled as `some error` paired with the state at
  the throw point, so partial mutation before a throw is representable.
  Each primitive account method validates before mutating, exactly as in
  the source.
-/

namespace Bank

inductive AccountType where
  | SAVINGS
  | CHECKING
deriving DecidableEq

inductive TxType where
  | DEPOSIT
  | WITHDRAW
  | TRANSFER_IN
  | TRANSFER_OUT
  | INTEREST
deriving DecidableEq

structure Transaction where
  accountId : String
  type : TxType
  amount : ℚ
  description : String
deriving DecidableEq

inductive BankError where
  | InvalidAmount (message : String)
  | InsufficientFunds (balance requested : ℚ)
deriving DecidableEq

/-- The two interest strategies; the fixed savings rate is 0.03. -/
inductive InterestStrategy where
  | savings
  | checking
deriving DecidableEq

def savingsRate : ℚ := 3 / 100

def InterestStrategy.calculateInterest : InterestStrategy → ℚ → ℚ
  | .savings, balance => balance * savingsRate
  | .checking, _ => 0

structure BankAccount where
  id : String
  name : String
  type : AccountType
  balance : ℚ
  interestStrategy : InterestStrategy
  transactions : List Transaction
deriving DecidableEq

/-- The `BankAccount` constructor: balance starts at `initialBalance`,
the transaction log starts empty, and the strategy is chosen by type. -/
def BankAccount.new (id name : String) (type : AccountType) (initialBalance : ℚ) :
    BankAccount :=
  { id := id
    name := name
    type := type
    balance := initialBalance
    interestStrategy := if type = AccountType.SAVINGS then .savings else .checking
    transactions := [] }

def BankAccount.addTransaction (a : BankAccount) (type : TxType) (amount : ℚ)
    (description : String) : BankAccount :=
  { a with transactions :=
      a.transactions ++ [⟨a.id, type, amount, description⟩] }

def BankAccount.deposit (a : BankAccount) (amount : ℚ) (description : String) :
    Except BankError BankAccount :=
  if amount ≤ 0 then .error (.InvalidAmount "Deposit amount must be positive")
  else .ok (({ a with balance := a.balance + amount }).addTransaction
    .DEPOSIT amount description)

def BankAccount.withdraw (a : BankAccount) (amount : ℚ) (description : String) :
    Except BankError BankAccount :=
  if amount ≤ 0 then .error (.InvalidAmount "Withdraw amount must be positive")
  else if a.balance < amount then .error (.InsufficientFunds a.balance amount)
  else .ok (({ a with balance := a.balance - amount }).addTransaction
    .WITHDRAW amount description)

/-- `applyInterest` returns the mutated account together with the computed
interest (the source mutates in place and returns the interest). -/
def BankAccount.applyInterest (a : BankAccount) : BankAccount × ℚ :=
  let interest := a.interestStrategy.calculateInterest a.balance
  if 0 < interest then
    (({ a with balance := a.balance + interest }).addTransaction
      .INTEREST interest "Interest Credited", interest)
  else (a, interest)

/-- Helper that bypasses balance checks; adjusts the balance only. -/
def BankAccount.forceBalanceChange (a : BankAccount) (amount : ℚ) : BankAccount :=
  { a with balance := a.balance + amount }

/-- The invoker's account registry, `Map<string, BankAccount>` in insertion
order. -/
abbrev AccountMap := List (String × BankAccount)

def getAccount : AccountMap → String → Option BankAccount
  | [], _ => none
  | (k, a) :: rest, i => if k = i then some a else getAccount rest i

/-- `Map.set` semantics: replace the entry in place when the key exists,
append otherwise. -/
def setAccount : AccountMap → String → BankAccount → AccountMap
  | [], i, acc => [(i, acc)]
  | (k, a) :: rest, i, acc =>
      if k = i then (i, acc) :: rest else (k, a) :: setAccount rest i acc

/-- Run a fallible account method through the registry.  On a throw the
registry is unchanged (every primitive validates before mutating); a
missing account is a no-op, a situation the source cannot reach because
commands hold live references. -/
def modifyAccount (accs : AccountMap) (i : String)
    (f : BankAccount → Except BankError BankAccount) :
    AccountMap × Option BankError :=
  match getAccount accs i with
  | none => (accs, none)
  | some a =>
    match f a with
    | .ok a' => (setAccount accs i a', none)
    | .error e => (accs, some e)

def accountName (accs : AccountMap) (i : String) : String :=
  match getAccount accs i with
  | some a => a.name
  | none => ""

/-- The three command variants, holding account ids and the amount. -/
inductive BankCommand where
  | deposit (accountId : String) (amount : ℚ)
  | withdraw (accountId : String) (amount : ℚ)
  | transfer (fromId toId : String) (amount : ℚ)
deriving DecidableEq

/-- `execute()` of each command.  The transfer runs the withdraw leg first
and the deposit leg only if the withdraw leg did not throw. -/
def BankCommand.execute : BankCommand → AccountMap → AccountMap × Option BankError
  | .deposit accountId amount, accs =>
      modifyAccount accs accountId (fun a => a.deposit amount "Deposit")
  | .withdraw accountId amount, accs =>
      modifyAccount accs accountId (fun a => a.withdraw amount "Withdraw")
  | .transfer fromId toId amount, accs =>
      match modifyAccount accs fromId
          (fun a => a.withdraw amount ("Transfer to " ++ accountName accs toId)) with
      | (accs1, some e) => (accs1, some e)
      | (accs1, none) =>
          modifyAccount accs1 toId
            (fun a => a.deposit amount ("Transfer from " ++ accountName accs fromId))

/-- `undo()` of each command: the inverse operation, tagged as a reversal. -/
def BankCommand.undo : BankCommand → AccountMap → AccountMap × Option BankError
  | .deposit accountId amount, accs =>
      modifyAccount accs accountId (fun a => a.withdraw amount "UNDO: Revert Deposit")
  | .withdraw accountId amount, accs =>
      modifyAccount accs accountId (fun a => a.deposit amount "UNDO: Revert Withdraw")
  | .transfer fromId toId amount, accs =>
      match modifyAccount accs toId
          (fun a => a.withdraw amount
            ("UNDO: Revert Transfer from " ++ accountName accs fromId)) with
      | (accs1, some e) => (accs1, some e)
      | (accs1, none) =>
          modifyAccount accs1 fromId
            (fun a => a.deposit amount
              ("UNDO: Revert Transfer to " ++ accountName accs toId))

/-- The invoker: the account registry plus the undo history.  The source
stack pushes/pops at the array's end; the list is kept top-first, so push
is cons and pop takes the head. -/
structure BankInvoker where
  accounts : AccountMap
  history : List BankCommand
deriving DecidableEq

def BankInvoker.empty : BankInvoker := ⟨[], []⟩

def BankInvoker.createAccount (inv : BankInvoker) (id name : String)
    (type : AccountType) (initialBalance : ℚ) : BankInvoker × BankAccount :=
  let account := BankAccount.new id name type initialBalance
  ({ inv with accounts := setAccount inv.accounts id account }, account)

/-- `executeCommand`: run the command; push it onto history only when it
did not throw; rethrow otherwise (history untouched). -/
def BankInvoker.executeCommand (inv : BankInvoker) (cmd : BankCommand) :
    BankInvoker × Option BankError :=
  match cmd.execute inv.accounts with
  | (accs, none) => (⟨accs, cmd :: inv.history⟩, none)
  | (accs, some e) => (⟨accs, inv.history⟩, some e)

/-- `undoLastCommand`: pop the top command if any and run its `undo`; if
the undo throws, push the command back and rethrow.  An empty history is
a silent no-op. -/
def BankInvoker.undoLastCommand (inv : BankInvoker) : BankInvoker × Option BankError :=
  match inv.history with
  | [] => (inv, none)
  | cmd :: rest =>
    match cmd.undo inv.accounts with
    | (accs, none) => (⟨accs, rest⟩, none)
    | (accs, some e) => (⟨accs, cmd :: rest⟩, some e)

/-- `applyInterestToAll`: accrue interest on every registered account;
the history is not touched. -/
def BankInvoker.applyInterestToAll (inv : BankInvoker) : BankInvoker :=
  { inv with accounts := inv.accounts.map (fun p => (p.1, p.2.applyInterest.1)) }

/-- The invoker states reachable through the public mutating entry points,
starting from a fresh invoker. -/
inductive InvReach : BankInvoker → Prop where
  | init : InvReach BankInvoker.empty
  | create (inv : BankInvoker) (id name : String) (type : AccountType)
      (initialBalance : ℚ) (h : InvReach inv) :
      InvReach (inv.createAccount id name type initialBalance).1
  | exec (inv : BankInvoker) (cmd : BankCommand) (h : InvReach inv) :
      InvReach (inv.executeCommand cmd).1
  | undo (inv : BankInvoker) (h : InvReach inv) :
      InvReach inv.undoLastCommand.1
  | interest (inv : BankInvoker) (h : InvReach inv) :
      InvReach inv.applyInterestToAll

/-- The sign convention of the spec: deposit, interest and transfer-in
count positive; withdraw and transfer-out count negative. -/
def Transaction.signedAmount (t : Transaction) : ℚ :=
  match t.type with
  | .DEPOSIT => t.amount
  | .INTEREST => t.amount
  | .TRANSFER_IN => t.amount
  | .WITHDRAW => -t.amount
  | .TRANSFER_OUT => -t.amount

def signedSum (ts : List Transaction) : ℚ :=
  (ts.map Transaction.signedAmount).sum

/-- The account states reachable from a given account through the methods
the repository actually calls: `deposit`, `withdraw` and `applyInterest`. -/
inductive AccountReach (init : BankAccount) : BankAccount → Prop where
  | refl : AccountReach init init
  | deposit (a a' : BankAccount) (amount : ℚ) (description : String)
      (h : AccountReach init a) (hs : a.deposit amount description = .ok a') :
      AccountReach init a'
  | withdraw (a a' : BankAccount) (amount : ℚ) (description : String)
      (h : AccountReach init a) (hs : a.withdraw amount description = .ok a') :
      AccountReach init a'
  | interest (a : BankAccount) (h : AccountReach init a) :
      AccountReach init a.applyInterest.1

/-! ### Basic lemmas about the embedding -/

theorem signedSum_append (ts us : List Transaction) :
    signedSum (ts ++ us) = signedSum ts + signedSum us := by
  simp [signedSum]

theorem getAccount_setAccount_same (accs : AccountMap) (i : String) (acc : BankAccount) :
    getAccount (setAccount accs i acc) i = some acc := by
  induction accs with
  | nil => simp [setAccount, getAccount]
  | cons p rest ih =>
    obtain ⟨k, a⟩ := p
    by_cases hk : k = i <;> simp [setAccount, getAccount, hk, ih]

theorem getAccount_setAccount_other (accs : AccountMap) (i j : String)
    (acc : BankAccount) (hij : i ≠ j) :
    getAccount (setAccount accs i acc) j = getAccount accs j := by
  induction accs with
  | nil => simp [setAccount, getAccount, hij]
  | cons p rest ih =>
    obtain ⟨k, a⟩ := p
    by_cases hk : k = i
    · subst hk
      simp [setAccount, getAccount, hij]
    · by_cases hj : k = j <;>
        simp [setAccount, getAccount, hk, hj, ih, Ne.symm hij]

theorem BankAccount.deposit_ok (a : BankAccount) (amount : ℚ) (d : String)
    (h : 0 < amount) :
    a.deposit amount d =
      .ok (({ a with balance := a.balance + amount }).addTransaction .DEPOSIT amount d) := by
  simp [BankAccount.deposit, not_le.mpr h]

theorem BankAccount.deposit_ok_pos (a a' : BankAccount) (amount : ℚ) (d : String)
    (h : a.deposit amount d = .ok a') : 0 < amount := by
  by_contra hle
  simp [BankAccount.deposit, not_lt.mp hle] at h

theorem BankAccount.withdraw_ok (a : BankAccount) (amount : ℚ) (d : String)
    (h1 : 0 < amount) (h2 : amount ≤ a.balance) :
    a.withdraw amount d =
      .ok (({ a with balance := a.balance - amount }).addTransaction .WITHDRAW amount d) := by
  simp [BankAccount.withdraw, not_le.mpr h1, not_lt.mpr h2]

theorem BankAccount.withdraw_ok_pos (a a' : BankAccount) (amount : ℚ) (d : String)
    (h : a.withdraw amount d = .ok a') : 0 < amount ∧ amount ≤ a.balance := by
  by_cases h1 : amount ≤ 0
  · simp [BankAccount.withdraw, h1] at h
  · by_cases h2 : a.balance < amount
    · simp [BankAccount.withdraw, h1, h2] at h
    · exact ⟨not_le.mp h1, not_lt.mp h2⟩

theorem BankAccount.applyInterest_pos (a : BankAccount)
    (h : 0 < a.interestStrategy.calculateInterest a.balance) :
    a.applyInterest =
      (({ a with balance := a.balance + a.interestStrategy.calculateInterest a.balance
         }).addTransaction .INTEREST
         (a.interestStrategy.calculateInterest a.balance) "Interest Credited",
       a.interestStrategy.calculateInterest a.balance) := by
  simp [BankAccount.applyInterest, h]

theorem BankAccount.applyInterest_nonpos (a : BankAccount)
    (h : ¬ 0 < a.interestStrategy.calculateInterest a.balance) :
    a.applyInterest = (a, a.interestStrategy.calculateInterest a.balance) := by
  simp [BankAccount.applyInterest, h]

theorem modifyAccount_ok (accs : AccountMap) (i : String) (a a' : BankAccount)
    (f : BankAccount → Except BankError BankAccount)
    (ha : getAccount accs i = some a) (hf : f a = .ok a') :
    modifyAccount accs i f = (setAccount accs i a', none) := by
  simp [modifyAccount, ha, hf]

theorem modifyAccount_error (accs : AccountMap) (i : String) (a : BankAccount)
    (e : BankError) (f : BankAccount → Except BankError BankAccount)
    (ha : getAccount accs i = some a) (hf : f a = .error e) :
    modifyAccount accs i f = (accs, some e) := by
  simp [modifyAccount, ha, hf]

theorem modifyAccount_snd_some (accs : AccountMap) (i : String) (e : BankError)
    (f : BankAccount → Except BankError BankAccount)
    (h : (modifyAccount accs i f).2 = some e) :
    (modifyAccount accs i f).1 = accs ∧
      ∃ a, getAccount accs i = some a ∧ f a = .error e := by
  unfold modifyAccount at *
  cases hg : getAccount accs i with
  | none => simp [hg] at h
  | some a =>
    cases hf : f a with
    | ok a' => simp [hg, hf] at h
    | error e' =>
      simp [hg, hf] at h ⊢
      exact h

theorem executeCommand_success (inv : BankInvoker) (cmd : BankCommand)
    (accs : AccountMap) (h : cmd.execute inv.accounts = (accs, none)) :
    inv.executeCommand cmd = (⟨accs, cmd :: inv.history⟩, none) := by
  simp [BankInvoker.executeCommand, h]

theorem executeCommand_failure (inv : BankInvoker) (cmd : BankCommand)
    (accs : AccountMap) (e : BankError)
    (h : cmd.execute inv.accounts = (accs, some e)) :
    inv.executeCommand cmd = (⟨accs, inv.history⟩, some e) := by
  simp [BankInvoker.executeCommand, h]

theorem createAccount_history (inv : BankInvoker) (id name : String)
    (type : AccountType) (b : ℚ) :
    (inv.createAccount id name type b).1.history = inv.history := rfl

theorem applyInterestToAll_history (inv : BankInvoker) :
    inv.applyInterestToAll.history = inv.history := rfl

theorem undoLastCommand_nil (inv : BankInvoker) (h : inv.history = []) :
    inv.undoLastCommand = (inv, none) := by
  cases inv
  simp_all [BankInvoker.undoLastCommand]

theorem undoLastCommand_cons_ok (inv : BankInvoker) (cmd : BankCommand)
    (rest : List BankCommand) (accs : AccountMap)
    (h : inv.history = cmd :: rest) (hu : cmd.undo inv.accounts = (accs, none)) :
    inv.undoLastCommand = (⟨accs, rest⟩, none) := by
  cases inv
  simp_all [BankInvoker.undoLastCommand]

theorem undoLastCommand_cons_err (inv : BankInvoker) (cmd : BankCommand)
    (rest : List BankCommand) (accs : AccountMap) (e : BankError)
    (h : inv.history = cmd :: rest) (hu : cmd.undo inv.accounts = (accs, some e)) :
    inv.undoLastCommand = (⟨accs, cmd :: rest⟩, some e) := by
  cases inv
  simp_all [BankInvoker.undoLastCommand]

theorem undoLast_history_mem (inv : BankInvoker) (c : BankCommand)
    (h : c ∈ inv.undoLastCommand.1.history) : c ∈ inv.history := by
  cases hh : inv.history with
  | nil =>
    rw [undoLastCommand_nil inv hh] at h
    rw [← hh]
    exact h
  | cons cmd rest =>
    cases hu : cmd.undo inv.accounts with
    | mk accs err =>
      cases err with
      | none =>
        rw [undoLastCommand_cons_ok inv cmd rest accs hh hu] at h
        exact List.mem_cons_of_mem _ h
      | some e =>
        rw [undoLastCommand_cons_err inv cmd rest accs e hh hu] at h
        exact h

theorem BankAccount.deposit_error_nonpos (a : BankAccount) (amount : ℚ)
    (d : String) (e : BankError) (h : a.deposit amount d = .error e) :
    amount ≤ 0 := by
  by_contra hpos
  rw [BankAccount.deposit_ok a amount d (not_le.mp hpos)] at h
  simp at h

theorem modifyAccount_snd_none (accs : AccountMap) (i : String)
    (f : BankAccount → Except BankError BankAccount)
    (h : (modifyAccount accs i f).2 = none) :
    (getAccount accs i = none ∧ (modifyAccount accs i f).1 = accs) ∨
    (∃ a a', getAccount accs i = some a ∧ f a = .ok a' ∧
      (modifyAccount accs i f).1 = setAccount accs i a') := by
  unfold modifyAccount at *
  cases hg : getAccount accs i with
  | none => exact Or.inl ⟨rfl, rfl⟩
  | some a =>
    cases hf : f a with
    | ok a' => exact Or.inr ⟨a, a', rfl, hf, by simp [hf]⟩
    | error e => simp [hg, hf] at h

theorem accountName_eq (accs : AccountMap) (i : String) (a : BankAccount)
    (h : getAccount accs i = some a) : accountName accs i = a.name := by
  simp [accountName, h]

theorem transfer_execute_ok (accs : AccountMap) (fromId toId : String)
    (ax ay : BankAccount) (amount : ℚ)
    (hx : getAccount accs fromId = some ax) (hy : getAccount accs toId = some ay)
    (hne : fromId ≠ toId) (hpos : 0 < amount) (hle : amount ≤ ax.balance) :
    (BankCommand.transfer fromId toId amount).execute accs =
      (setAccount (setAccount accs fromId
          (({ ax with balance := ax.balance - amount }).addTransaction .WITHDRAW
            amount ("Transfer to " ++ ay.name))) toId
        (({ ay with balance := ay.balance + amount }).addTransaction .DEPOSIT
            amount ("Transfer from " ++ ax.name)), none) := by
  have hnw := accountName_eq accs toId ay hy
  have hnf := accountName_eq accs fromId ax hx
  have hw := BankAccount.withdraw_ok ax amount ("Transfer to " ++ ay.name) hpos hle
  have hd := BankAccount.deposit_ok ay amount ("Transfer from " ++ ax.name) hpos
  have h1 := modifyAccount_ok accs fromId ax _
    (fun a => a.withdraw amount ("Transfer to " ++ ay.name)) hx hw
  have hy1 : getAccount (setAccount accs fromId
      (({ ax with balance := ax.balance - amount }).addTransaction .WITHDRAW amount
        ("Transfer to " ++ ay.name))) toId = some ay := by
    rw [getAccount_setAccount_other accs fromId toId _ hne]
    exact hy
  have h2 := modifyAccount_ok _ toId ay _
    (fun a => a.deposit amount ("Transfer from " ++ ax.name)) hy1 hd
  simp only [BankCommand.execute, hnw, hnf, h1, h2]

theorem transfer_execute_insufficient (accs : AccountMap) (fromId toId : String)
    (ax : BankAccount) (amount : ℚ) (hx : getAccount accs fromId = some ax)
    (hpos : 0 < amount) (hlt : ax.balance < amount) :
    (BankCommand.transfer fromId toId amount).execute accs =
      (accs, some (BankError.InsufficientFunds ax.balance amount)) := by
  have hw : ax.withdraw amount ("Transfer to " ++ accountName accs toId) =
      .error (.InsufficientFunds ax.balance amount) := by
    simp [BankAccount.withdraw, not_le.mpr hpos, hlt]
  have h1 := modifyAccount_error accs fromId ax _
    (fun a => a.withdraw amount ("Transfer to " ++ accountName accs toId)) hx hw
  simp only [BankCommand.execute, h1]

theorem transfer_execute_invalid (accs : AccountMap) (fromId toId : String)
    (ax : BankAccount) (amount : ℚ) (hx : getAccount accs fromId = some ax)
    (hle : amount ≤ 0) :
    (BankCommand.transfer fromId toId amount).execute accs =
      (accs, some (BankError.InvalidAmount "Withdraw amount must be positive")) := by
  have hw : ax.withdraw amount ("Transfer to " ++ accountName accs toId) =
      .error (.InvalidAmount "Withdraw amount must be positive") := by
    simp [BankAccount.withdraw, hle]
  have h1 := modifyAccount_error accs fromId ax _
    (fun a => a.withdraw amount ("Transfer to " ++ accountName accs toId)) hx hw
  simp only [BankCommand.execute, h1]

theorem getAccount_mapInterest (accs : AccountMap) (i : String) :
    getAccount (accs.map (fun p => (p.1, p.2.applyInterest.1))) i =
      Option.map (fun a => a.applyInterest.1) (getAccount accs i) := by
  induction accs with
  | nil => simp [getAccount]
  | cons p rest ih =>
    obtain ⟨k, a⟩ := p
    by_cases hk : k = i <;> simp [getAccount, hk, ih]

theorem deposit_undo_insufficient (accs : AccountMap) (i : String) (a : BankAccount)
    (amount : ℚ) (ha : getAccount accs i = some a) (hpos : 0 < amount)
    (hlt : a.balance < amount) :
    (BankCommand.deposit i amount).undo accs =
      (accs, some (BankError.InsufficientFunds a.balance amount)) := by
  have hw : a.withdraw amount "UNDO: Revert Deposit" =
      .error (.InsufficientFunds a.balance amount) := by
    simp [BankAccount.withdraw, not_le.mpr hpos, hlt]
  simpa [BankCommand.undo] using modifyAccount_error accs i a _ _ ha hw

/-- An undo that throws leaves the registry exactly as it was: every
single-account inverse validates before mutating, and the transfer inverse
can only throw on its first (withdraw) leg. -/
theorem undo_fail_unchanged (cmd : BankCommand) (accs : AccountMap) (e : BankError)
    (h : (cmd.undo accs).2 = some e) : (cmd.undo accs).1 = accs := by
  cases cmd with
  | deposit i amt => exact (modifyAccount_snd_some accs i e _ h).1
  | withdraw i amt => exact (modifyAccount_snd_some accs i e _ h).1
  | transfer f t amt =>
    simp only [BankCommand.undo] at h ⊢
    cases h1 : modifyAccount accs t
        (fun a => a.withdraw amt ("UNDO: Revert Transfer from " ++ accountName accs f)) with
    | mk accs1 err1 =>
      cases err1 with
      | some e1 =>
        have h2 := (modifyAccount_snd_some accs t e1 _ (by rw [h1])).1
        rw [h1] at h2
        exact h2
      | none =>
        rw [h1] at h
        have h' : (modifyAccount accs1 f
            (fun a => a.deposit amt
              ("UNDO: Revert Transfer to " ++ accountName accs t))).2 = some e := h
        obtain ⟨hfst, a, hga, hdep⟩ := modifyAccount_snd_some accs1 f e _ h'
        have hnp := BankAccount.deposit_error_nonpos a amt _ e hdep
        rcases modifyAccount_snd_none accs t _ (by rw [h1]) with
          ⟨hnone, hfst1⟩ | ⟨b, b', hgb, hwok, _⟩
        · rw [h1] at hfst1
          rw [hfst]
          exact hfst1
        · have := (BankAccount.withdraw_ok_pos b b' amt _ hwok).1
          linarith

/-- No transaction of this account has a transfer-in/transfer-out kind. -/
def NoTransferTx (a : BankAccount) : Prop :=
  ∀ t ∈ a.transactions,
    t.type ≠ TxType.TRANSFER_IN ∧ t.type ≠ TxType.TRANSFER_OUT

def NoTransferTxMap (accs : AccountMap) : Prop :=
  ∀ p ∈ accs, NoTransferTx p.2

theorem getAccount_mem (accs : AccountMap) (i : String) (a : BankAccount)
    (h : getAccount accs i = some a) : (i, a) ∈ accs := by
  induction accs with
  | nil => simp [getAccount] at h
  | cons p rest ih =>
    obtain ⟨k, b⟩ := p
    by_cases hk : k = i
    · subst hk
      simp [getAccount] at h
      subst h
      exact List.mem_cons_self _ _
    · simp [getAccount, hk] at h
      exact List.mem_cons_of_mem _ (ih h)

theorem mem_setAccount (accs : AccountMap) (i : String) (acc : BankAccount)
    (p : String × BankAccount) (h : p ∈ setAccount accs i acc) :
    p ∈ accs ∨ p = (i, acc) := by
  induction accs with
  | nil =>
    simp [setAccount] at h
    exact Or.inr h
  | cons q rest ih =>
    obtain ⟨k, b⟩ := q
    by_cases hk : k = i
    · subst hk
      simp [setAccount] at h
      rcases h with h | h
      · exact Or.inr (by simp [h])
      · exact Or.inl (List.mem_cons_of_mem _ h)
    · simp only [setAccount, if_neg hk, List.mem_cons] at h
      rcases h with h | h
      · exact Or.inl (by simp [h])
      · rcases ih h with h' | h'
        · exact Or.inl (List.mem_cons_of_mem _ h')
        · exact Or.inr h'

theorem NoTransferTx_addTransaction (a : BankAccount) (ty : TxType) (amt : ℚ)
    (d : String) (ha : NoTransferTx a) (h1 : ty ≠ TxType.TRANSFER_IN)
    (h2 : ty ≠ TxType.TRANSFER_OUT) : NoTransferTx (a.addTransaction ty amt d) := by
  intro t ht
  simp [BankAccount.addTransaction] at ht
  rcases ht with ht | ht
  · exact ha t ht
  · subst ht
    exact ⟨h1, h2⟩

theorem NoTransferTx_deposit (a a' : BankAccount) (amt : ℚ) (d : String)
    (ha : NoTransferTx a) (h : a.deposit amt d = .ok a') : NoTransferTx a' := by
  have hpos := BankAccount.deposit_ok_pos a a' amt d h
  rw [BankAccount.deposit_ok a amt d hpos] at h
  injection h with h
  subst h
  exact NoTransferTx_addTransaction _ _ _ _ ha (by simp) (by simp)

theorem NoTransferTx_withdraw (a a' : BankAccount) (amt : ℚ) (d : String)
    (ha : NoTransferTx a) (h : a.withdraw amt d = .ok a') : NoTransferTx a' := by
  have hok := BankAccount.withdraw_ok_pos a a' amt d h
  rw [BankAccount.withdraw_ok a amt d hok.1 hok.2] at h
  injection h with h
  subst h
  exact NoTransferTx_addTransaction _ _ _ _ ha (by simp) (by simp)

theorem NoTransferTx_applyInterest (a : BankAccount) (ha : NoTransferTx a) :
    NoTransferTx a.applyInterest.1 := by
  by_cases hpos : 0 < a.interestStrategy.calculateInterest a.balance
  · rw [BankAccount.applyInterest_pos a hpos]
    exact NoTransferTx_addTransaction _ _ _ _ ha (by simp) (by simp)
  · rw [BankAccount.applyInterest_nonpos a hpos]
    exact ha

theorem NoTransferTxMap_setAccount (accs : AccountMap) (i : String)
    (acc : BankAccount) (h : NoTransferTxMap accs) (hacc : NoTransferTx acc) :
    NoTransferTxMap (setAccount accs i acc) := by
  intro p hp
  rcases mem_setAccount accs i acc p hp with hp' | hp'
  · exact h p hp'
  · rw [hp']
    exact hacc

theorem NoTransferTxMap_modify (accs : AccountMap) (i : String)
    (f : BankAccount → Except BankError BankAccount) (h : NoTransferTxMap accs)
    (hf : ∀ a a', NoTransferTx a → f a = .ok a' → NoTransferTx a') :
    NoTransferTxMap (modifyAccount accs i f).1 := by
  cases hg : getAccount accs i with
  | none =>
    have hfst : (modifyAccount accs i f).1 = accs := by simp [modifyAccount, hg]
    rw [hfst]
    exact h
  | some a =>
    cases hfa : f a with
    | ok a' =>
      rw [modifyAccount_ok accs i a a' f hg hfa]
      exact NoTransferTxMap_setAccount accs i a' h
        (hf a a' (h (i, a) (getAccount_mem accs i a hg)) hfa)
    | error e =>
      rw [modifyAccount_error accs i a e f hg hfa]
      exact h

theorem NoTransferTxMap_execute (cmd : BankCommand) (accs : AccountMap)
    (h : NoTransferTxMap accs) : NoTransferTxMap (cmd.execute accs).1 := by
  cases cmd with
  | deposit i amt =>
    exact NoTransferTxMap_modify accs i _ h
      (fun a a' ha hf => NoTransferTx_deposit a a' amt _ ha hf)
  | withdraw i amt =>
    exact NoTransferTxMap_modify accs i _ h
      (fun a a' ha hf => NoTransferTx_withdraw a a' amt _ ha hf)
  | transfer f t amt =>
    simp only [BankCommand.execute]
    cases h1 : modifyAccount accs f
        (fun a => a.withdraw amt ("Transfer to " ++ accountName accs t)) with
    | mk accs1 err =>
      have hm1 : NoTransferTxMap accs1 := by
        have hp := NoTransferTxMap_modify accs f
          (fun a => a.withdraw amt ("Transfer to " ++ accountName accs t)) h
          (fun a a' ha hf => NoTransferTx_withdraw a a' amt _ ha hf)
        rw [h1] at hp
        exact hp
      cases err with
      | some e => exact hm1
      | none =>
        exact NoTransferTxMap_modify accs1 t _ hm1
          (fun a a' ha hf => NoTransferTx_deposit a a' amt _ ha hf)

theorem NoTransferTxMap_undo (cmd : BankCommand) (accs : AccountMap)
    (h : NoTransferTxMap accs) : NoTransferTxMap (cmd.undo accs).1 := by
  cases cmd with
  | deposit i amt =>
    exact NoTransferTxMap_modify accs i _ h
      (fun a a' ha hf => NoTransferTx_withdraw a a' amt _ ha hf)
  | withdraw i amt =>
    exact NoTransferTxMap_modify accs i _ h
      (fun a a' ha hf => NoTransferTx_deposit a a' amt _ ha hf)
  | transfer f t amt =>
    simp only [BankCommand.undo]
    cases h1 : modifyAccount accs t
        (fun a => a.withdraw amt
          ("UNDO: Revert Transfer from " ++ accountName accs f)) with
    | mk accs1 err =>
      have hm1 : NoTransferTxMap accs1 := by
        have hp := NoTransferTxMap_modify accs t
          (fun a => a.withdraw amt
            ("UNDO: Revert Transfer from " ++ accountName accs f)) h
          (fun a a' ha hf => NoTransferTx_withdraw a a' amt _ ha hf)
        rw [h1] at hp
        exact hp
      cases err with
      | some e => exact hm1
      | none =>
        exact NoTransferTxMap_modify accs1 f _ hm1
          (fun a a' ha hf => NoTransferTx_deposit a a' amt _ ha hf)

theorem NoTransferTxMap_interestAll (accs : AccountMap) (h : NoTransferTxMap accs) :
    NoTransferTxMap (accs.map (fun p => (p.1, p.2.applyInterest.1))) := by
  intro p hp
  obtain ⟨q, hq, rfl⟩ := List.mem_map.mp hp
  exact NoTransferTx_applyInterest _ (h q hq)

theorem executeCommand_accounts (inv : BankInvoker) (cmd : BankCommand) :
    (inv.executeCommand cmd).1.accounts = (cmd.execute inv.accounts).1 := by
  cases hres : cmd.execute inv.accounts with
  | mk accs err =>
    cases err with
    | none => rw [executeCommand_success inv cmd accs hres]
    | some e => rw [executeCommand_failure inv cmd accs e hres]

theorem undoLast_accounts (inv : BankInvoker) :
    inv.undoLastCommand.1.accounts = inv.accounts ∨
    ∃ cmd, cmd ∈ inv.history ∧
      inv.undoLastCommand.1.accounts = (cmd.undo inv.accounts).1 := by
  cases hh : inv.history with
  | nil =>
    left
    rw [undoLastCommand_nil inv hh]
  | cons cmd rest =>
    right
    refine ⟨cmd, List.mem_cons_self _ _, ?_⟩
    cases hu : cmd.undo inv.accounts with
    | mk accs err =>
      cases err with
      | none => rw [undoLastCommand_cons_ok inv cmd rest accs hh hu]
      | some e => rw [undoLastCommand_cons_err inv cmd rest accs e hh hu]

/-! ### Sample data used by witnesses and counterexamples -/

def accA : BankAccount := BankAccount.new "a" "Alice" AccountType.CHECKING 10

def mapA : AccountMap := [("a", accA)]

def invC1 : BankInvoker :=
  ⟨[("a", BankAccount.new "a" "John" AccountType.SAVINGS 1000)], []⟩

def accX : BankAccount := BankAccount.new "x" "Ex" AccountType.CHECKING 100

def accY : BankAccount := BankAccount.new "y" "Why" AccountType.SAVINGS 20

def mapXY : AccountMap := [("x", accX), ("y", accY)]

def invC6 : BankInvoker :=
  ⟨[("a", BankAccount.new "a" "Al" AccountType.CHECKING 20)],
   [BankCommand.deposit "a" 50]⟩

def invC8 : BankInvoker :=
  ⟨[("s", BankAccount.new "s" "Sav" AccountType.SAVINGS 1000),
    ("c", BankAccount.new "c" "Chk" AccountType.CHECKING 500)], []⟩

def invC7 : BankInvoker :=
  ⟨[("a", BankAccount.new "a" "Neg" AccountType.CHECKING (-1))], []⟩

def invW3 : BankInvoker := ⟨mapA, []⟩

def invW1 : BankInvoker :=
  (BankInvoker.empty.createAccount "a" "Ann" AccountType.SAVINGS 50).1

def invW2 : BankInvoker :=
  (invW1.executeCommand (BankCommand.deposit "a" 100)).1

/-! ### Claim theorems -/

/-- C9: `forceBalanceChange` is a public operation that, for every account
and every amount (positive, zero or negative, with no validation), changes
the balance by exactly that amount and leaves the transaction log and all
other fields unchanged. -/
theorem forceBalanceChange_frame_C9 (a : BankAccount) (amount : ℚ) :
    (a.forceBalanceChange amount).balance = a.balance + amount ∧
    (a.forceBalanceChange amount).transactions = a.transactions ∧
    (a.forceBalanceChange amount).id = a.id ∧
    (a.forceBalanceChange amount).name = a.name ∧
    (a.forceBalanceChange amount).type = a.type ∧
    (a.forceBalanceChange amount).interestStrategy = a.interestStrategy := by
  simp [BankAccount.forceBalanceChange]

/-- C4: withdraw fails with `InvalidAmount` when amount ≤ 0 and with
`InsufficientFunds` when the amount exceeds the balance, leaving the
registry (hence balance and transaction log) unchanged; on success it
decreases the balance by exactly the amount, appends exactly one withdraw
transaction, and leaves the balance nonnegative. -/
theorem withdraw_validation_C4 (accs : AccountMap) (i : String) (a : BankAccount)
    (amount : ℚ) (ha : getAccount accs i = some a) :
    (amount ≤ 0 →
      (BankCommand.withdraw i amount).execute accs =
        (accs, some (BankError.InvalidAmount "Withdraw amount must be positive"))) ∧
    (0 < amount → a.balance < amount →
      (BankCommand.withdraw i amount).execute accs =
        (accs, some (BankError.InsufficientFunds a.balance amount))) ∧
    (0 < amount → amount ≤ a.balance →
      ∃ a', a.withdraw amount "Withdraw" = .ok a' ∧
        (BankCommand.withdraw i amount).execute accs = (setAccount accs i a', none) ∧
        a'.balance = a.balance - amount ∧ 0 ≤ a'.balance ∧
        a'.transactions = a.transactions ++ [⟨a.id, .WITHDRAW, amount, "Withdraw"⟩]) := by
  refine ⟨fun hle => ?_, fun hpos hlt => ?_, fun hpos hle => ?_⟩
  · have hf : a.withdraw amount "Withdraw" =
        .error (.InvalidAmount "Withdraw amount must be positive") := by
      simp [BankAccount.withdraw, hle]
    simpa [BankCommand.execute] using modifyAccount_error accs i a _ _ ha hf
  · have hf : a.withdraw amount "Withdraw" =
        .error (.InsufficientFunds a.balance amount) := by
      simp [BankAccount.withdraw, not_le.mpr hpos, hlt]
    simpa [BankCommand.execute] using modifyAccount_error accs i a _ _ ha hf
  · refine ⟨_, BankAccount.withdraw_ok a amount "Withdraw" hpos hle, ?_, ?_, ?_, ?_⟩
    · simpa [BankCommand.execute] using
        modifyAccount_ok accs i a _ _ ha (BankAccount.withdraw_ok a amount "Withdraw" hpos hle)
    · simp [BankAccount.addTransaction]
    · simp [BankAccount.addTransaction]
      linarith
    · simp [BankAccount.addTransaction]

/-- C4 witness: on a concrete account with balance 10 a withdrawal of 4
succeeds, shrinks the balance to 6 and appends one withdraw transaction. -/
theorem withdraw_validation_C4_witness :
    (0:ℚ) < 4 ∧ (4:ℚ) ≤ accA.balance ∧
    ∃ a', accA.withdraw 4 "Withdraw" = .ok a' ∧
      (BankCommand.withdraw "a" 4).execute mapA = (setAccount mapA "a" a', none) ∧
      a'.balance = accA.balance - 4 ∧ 0 ≤ a'.balance ∧
      a'.transactions = accA.transactions ++ [⟨accA.id, .WITHDRAW, 4, "Withdraw"⟩] := by
  refine ⟨by norm_num, by decide, ?_⟩
  exact (withdraw_validation_C4 mapA "a" accA 4 (by decide)).2.2 (by norm_num) (by decide)

/-- C1 (amended): with an empty history, `undoLastCommand` performs no
mutation and returns without error — it does not fail with
`NothingToUndo` (no such error exists in the implementation; the UI
disables the undo control instead). -/
theorem undoLast_empty_noop_C1 (inv : BankInvoker) (h : inv.history = []) :
    inv.undoLastCommand = (inv, none) := by
  cases inv
  simp_all [BankInvoker.undoLastCommand]

/-- C1 witness: a concrete invoker with one account and empty history is
returned unchanged with no error. -/
theorem undoLast_empty_noop_C1_witness :
    invC1.undoLastCommand = (invC1, none) :=
  undoLast_empty_noop_C1 invC1 rfl

/-- C1 counterexample: with an empty history `undoLastCommand` does not
fail at all — it returns no error — contradicting the claim that it fails
with `NothingToUndo`. -/
theorem undoLast_empty_counterexample_C1 :
    invC1.history = [] ∧ invC1.undoLastCommand.2 = none := by
  constructor <;> rfl

/-- C2 (amended): for every account, at every state reachable from
creation via deposit, withdraw and interest accrual, the balance equals
the initial balance plus the sum of the recorded transaction amounts
signed by kind. -/
theorem balance_eq_initial_add_signedSum_C2 (id name : String) (t : AccountType)
    (b : ℚ) (a : BankAccount)
    (h : AccountReach (BankAccount.new id name t b) a) :
    a.balance = b + signedSum a.transactions := by
  induction h with
  | refl => simp [BankAccount.new, signedSum]
  | deposit a a' amount d h hs ih =>
      have hpos := BankAccount.deposit_ok_pos a a' amount d hs
      rw [BankAccount.deposit_ok a amount d hpos] at hs
      injection hs with hs
      subst hs
      simp [BankAccount.addTransaction, signedSum_append, ih, signedSum,
        Transaction.signedAmount]
      ring
  | withdraw a a' amount d h hs ih =>
      have hok := BankAccount.withdraw_ok_pos a a' amount d hs
      rw [BankAccount.withdraw_ok a amount d hok.1 hok.2] at hs
      injection hs with hs
      subst hs
      simp [BankAccount.addTransaction, signedSum_append, ih, signedSum,
        Transaction.signedAmount]
      ring
  | interest a h ih =>
      by_cases hpos : 0 < a.interestStrategy.calculateInterest a.balance
      · rw [BankAccount.applyInterest_pos a hpos]
        simp [BankAccount.addTransaction, signedSum_append, signedSum,
          Transaction.signedAmount]
        rw [ih]
        simp only [signedSum]
        ring
      · rw [BankAccount.applyInterest_nonpos a hpos]
        exact ih

/-- C2 witness: a freshly created account with initial balance 500
satisfies the amended invariant (500 = 500 + empty signed sum). -/
theorem balance_eq_initial_add_signedSum_C2_witness :
    (BankAccount.new "a" "A" AccountType.CHECKING 500).balance =
      500 + signedSum (BankAccount.new "a" "A" AccountType.CHECKING 500).transactions :=
  balance_eq_initial_add_signedSum_C2 "a" "A" AccountType.CHECKING 500 _ AccountReach.refl

/-- C2 counterexample: immediately after creation with initial balance
500 the balance is 500 while the signed transaction sum is 0, so the
claim `balance = signed sum` fails as stated. -/
theorem balance_signedSum_counterexample_C2 :
    (BankAccount.new "a" "A" AccountType.CHECKING 500).balance ≠
      signedSum (BankAccount.new "a" "A" AccountType.CHECKING 500).transactions := by
  decide

/-- C5: `executeCommand` pushes the command onto the history stack exactly
when its `execute` succeeded; on failure the same error propagates to the
caller and the history is unchanged.  Consequently, in every reachable
invoker state every command on the history applied successfully at some
reachable state. -/
theorem execute_pushes_iff_success_C5 :
    (∀ (inv : BankInvoker) (cmd : BankCommand),
      ((cmd.execute inv.accounts).2 = none →
        inv.executeCommand cmd =
          (⟨(cmd.execute inv.accounts).1, cmd :: inv.history⟩, none)) ∧
      (∀ e, (cmd.execute inv.accounts).2 = some e →
        inv.executeCommand cmd =
          (⟨(cmd.execute inv.accounts).1, inv.history⟩, some e))) ∧
    (∀ inv : BankInvoker, InvReach inv → ∀ cmd ∈ inv.history,
      ∃ inv0 : BankInvoker, InvReach inv0 ∧
        (cmd.execute inv0.accounts).2 = none) := by
  constructor
  · intro inv cmd
    constructor
    · intro hnone
      cases hres : cmd.execute inv.accounts with
      | mk accs err =>
        rw [hres] at hnone
        cases hnone
        rw [executeCommand_success inv cmd accs hres]
    · intro e hsome
      cases hres : cmd.execute inv.accounts with
      | mk accs err =>
        rw [hres] at hsome
        cases hsome
        rw [executeCommand_failure inv cmd accs e hres]
  · intro inv hreach
    induction hreach with
    | init => intro cmd hmem; simp [BankInvoker.empty] at hmem
    | create inv id name type b h ih =>
      intro cmd hmem
      rw [createAccount_history] at hmem
      exact ih cmd hmem
    | exec inv cmd' h ih =>
      intro cmd hmem
      cases hres : cmd'.execute inv.accounts with
      | mk accs err =>
        cases err with
        | none =>
          rw [executeCommand_success inv cmd' accs hres] at hmem
          rcases List.mem_cons.mp hmem with heq | hmem'
          · subst heq
            exact ⟨inv, h, by rw [hres]⟩
          · exact ih cmd hmem'
        | some e =>
          rw [executeCommand_failure inv cmd' accs e hres] at hmem
          exact ih cmd hmem
    | undo inv h ih =>
      intro cmd hmem
      exact ih cmd (undoLast_history_mem inv cmd hmem)
    | interest inv h ih =>
      intro cmd hmem
      rw [applyInterestToAll_history] at hmem
      exact ih cmd hmem

/-- C5 witness: a concrete successful deposit is pushed onto history, and
in the concrete reachable state holding it the command indeed applied
successfully. -/
theorem execute_pushes_iff_success_C5_witness :
    invC1.executeCommand (BankCommand.deposit "a" 100) =
      (⟨((BankCommand.deposit "a" 100).execute invC1.accounts).1,
         BankCommand.deposit "a" 100 :: invC1.history⟩, none) ∧
    ∃ inv0 : BankInvoker, InvReach inv0 ∧
      ((BankCommand.deposit "a" 100).execute inv0.accounts).2 = none := by
  constructor
  · exact (execute_pushes_iff_success_C5.1 invC1 (BankCommand.deposit "a" 100)).1
      (by decide)
  · exact execute_pushes_iff_success_C5.2 invW2
      (InvReach.exec invW1 (BankCommand.deposit "a" 100)
        (InvReach.create BankInvoker.empty "a" "Ann" AccountType.SAVINGS 50
          InvReach.init))
      (BankCommand.deposit "a" 100) (by decide)

/-- C3: a transfer of a positive amount `a ≤ bx` from X to Y succeeds and
leaves X with `bx − a`, Y with `by + a`, appending exactly one transaction
to each; a transfer with `a > bx` fails (with `InsufficientFunds` when the
amount is positive), the deposit leg never runs, and the registry — hence
both balances and both transaction logs — is unchanged. -/
theorem transfer_spec_C3 (accs : AccountMap) (fromId toId : String)
    (ax ay : BankAccount) (amount : ℚ)
    (hx : getAccount accs fromId = some ax) (hy : getAccount accs toId = some ay)
    (hne : fromId ≠ toId) :
    (0 < amount → amount ≤ ax.balance →
      ((BankCommand.transfer fromId toId amount).execute accs).2 = none ∧
      ∃ ax' ay',
        getAccount ((BankCommand.transfer fromId toId amount).execute accs).1 fromId
          = some ax' ∧
        getAccount ((BankCommand.transfer fromId toId amount).execute accs).1 toId
          = some ay' ∧
        ax'.balance = ax.balance - amount ∧ ay'.balance = ay.balance + amount ∧
        ax'.transactions = ax.transactions ++
          [⟨ax.id, .WITHDRAW, amount, "Transfer to " ++ ay.name⟩] ∧
        ay'.transactions = ay.transactions ++
          [⟨ay.id, .DEPOSIT, amount, "Transfer from " ++ ax.name⟩]) ∧
    (0 < amount → ax.balance < amount →
      (BankCommand.transfer fromId toId amount).execute accs =
        (accs, some (BankError.InsufficientFunds ax.balance amount))) ∧
    (ax.balance < amount →
      ((BankCommand.transfer fromId toId amount).execute accs).1 = accs ∧
      ∃ e, ((BankCommand.transfer fromId toId amount).execute accs).2 = some e) := by
  refine ⟨fun hpos hle => ?_, fun hpos hlt => ?_, fun hlt => ?_⟩
  · rw [transfer_execute_ok accs fromId toId ax ay amount hx hy hne hpos hle]
    refine ⟨rfl,
      (({ ax with balance := ax.balance - amount }).addTransaction .WITHDRAW amount
        ("Transfer to " ++ ay.name)),
      (({ ay with balance := ay.balance + amount }).addTransaction .DEPOSIT amount
        ("Transfer from " ++ ax.name)), ?_, ?_, ?_, ?_, ?_, ?_⟩
    · rw [getAccount_setAccount_other _ toId fromId _ (Ne.symm hne)]
      exact getAccount_setAccount_same _ _ _
    · exact getAccount_setAccount_same _ _ _
    · simp [BankAccount.addTransaction]
    · simp [BankAccount.addTransaction]
    · simp [BankAccount.addTransaction]
    · simp [BankAccount.addTransaction]
  · exact transfer_execute_insufficient accs fromId toId ax amount hx hpos hlt
  · by_cases hpos : 0 < amount
    · rw [transfer_execute_insufficient accs fromId toId ax amount hx hpos hlt]
      exact ⟨rfl, _, rfl⟩
    · rw [transfer_execute_invalid accs fromId toId ax amount hx (not_lt.mp hpos)]
      exact ⟨rfl, _, rfl⟩

/-- C3 witness: transferring 30 from a balance-100 account to a balance-20
account succeeds with balances 70 and 50 and one new transaction each. -/
theorem transfer_spec_C3_witness :
    (0:ℚ) < 30 ∧ (30:ℚ) ≤ accX.balance ∧
    (((BankCommand.transfer "x" "y" 30).execute mapXY).2 = none ∧
      ∃ ax' ay',
        getAccount ((BankCommand.transfer "x" "y" 30).execute mapXY).1 "x" = some ax' ∧
        getAccount ((BankCommand.transfer "x" "y" 30).execute mapXY).1 "y" = some ay' ∧
        ax'.balance = accX.balance - 30 ∧ ay'.balance = accY.balance + 30 ∧
        ax'.transactions = accX.transactions ++
          [⟨accX.id, .WITHDRAW, 30, "Transfer to " ++ accY.name⟩] ∧
        ay'.transactions = accY.transactions ++
          [⟨accY.id, .DEPOSIT, 30, "Transfer from " ++ accX.name⟩]) := by
  refine ⟨by norm_num, by decide, ?_⟩
  exact (transfer_spec_C3 mapXY "x" "y" accX accY 30 (by decide) (by decide)
    (by decide)).1 (by norm_num) (by decide)

/-- C6: if `undoLastCommand` pops a command whose `undo` throws, the
command is pushed back on top of the history, the registry is exactly as
if the undo were never attempted, and the error propagates to the caller;
in particular the inverse of a deposit throws `InsufficientFunds` when the
account's balance has been driven below the deposited amount. -/
theorem undo_failure_restores_C6 :
    (∀ (inv : BankInvoker) (cmd : BankCommand) (rest : List BankCommand)
        (e : BankError),
      inv.history = cmd :: rest → (cmd.undo inv.accounts).2 = some e →
      inv.undoLastCommand = (inv, some e)) ∧
    (∀ (accs : AccountMap) (i : String) (a : BankAccount) (amount : ℚ),
      getAccount accs i = some a → 0 < amount → a.balance < amount →
      (BankCommand.deposit i amount).undo accs =
        (accs, some (BankError.InsufficientFunds a.balance amount))) := by
  constructor
  · intro inv cmd rest e hh hu
    cases hres : cmd.undo inv.accounts with
    | mk accs err =>
      rw [hres] at hu
      cases hu
      have hback := undoLastCommand_cons_err inv cmd rest accs e hh hres
      have hunch := undo_fail_unchanged cmd inv.accounts e (by rw [hres])
      rw [hres] at hunch
      rw [hback]
      cases inv with
      | mk accsv histv =>
        simp only at hunch hh
        rw [hunch, hh]
  · intro accs i a amount ha hpos hlt
    exact deposit_undo_insufficient accs i a amount ha hpos hlt

/-- C7 (amended): executing a deposit and immediately undoing it restores
the pre-deposit balance, restores the history, and leaves the account with
exactly two more transactions (original + reversal), provided the
account's balance was nonnegative before the deposit — with a negative
prior balance the reversing withdraw throws `InsufficientFunds` and the
undo is rejected.  Withdraw-then-undo behaves this way whenever the
withdraw itself succeeded. -/
theorem op_then_undo_roundtrip_C7 (inv : BankInvoker) (i : String) (a : BankAccount)
    (amount : ℚ) (ha : getAccount inv.accounts i = some a) (hpos : 0 < amount) :
    (0 ≤ a.balance →
      ((inv.executeCommand (BankCommand.deposit i amount)).1.undoLastCommand.2 = none ∧
       ((inv.executeCommand (BankCommand.deposit i amount)).1.undoLastCommand.1).history
         = inv.history ∧
       ∃ a2, getAccount
           ((inv.executeCommand
             (BankCommand.deposit i amount)).1.undoLastCommand.1).accounts i = some a2 ∧
         a2.balance = a.balance ∧
         a2.transactions.length = a.transactions.length + 2)) ∧
    (amount ≤ a.balance →
      ((inv.executeCommand (BankCommand.withdraw i amount)).1.undoLastCommand.2 = none ∧
       ((inv.executeCommand (BankCommand.withdraw i amount)).1.undoLastCommand.1).history
         = inv.history ∧
       ∃ a2, getAccount
           ((inv.executeCommand
             (BankCommand.withdraw i amount)).1.undoLastCommand.1).accounts i = some a2 ∧
         a2.balance = a.balance ∧
         a2.transactions.length = a.transactions.length + 2)) := by
  constructor
  · intro hnn
    have step : ∃ a1, (BankCommand.deposit i amount).execute inv.accounts =
        (setAccount inv.accounts i a1, none) ∧
        a1.balance = a.balance + amount ∧
        a1.transactions.length = a.transactions.length + 1 := by
      refine ⟨({ a with balance := a.balance + amount }).addTransaction .DEPOSIT amount
        "Deposit", ?_, ?_, ?_⟩
      · simpa [BankCommand.execute] using
          modifyAccount_ok inv.accounts i a _ _ ha
            (BankAccount.deposit_ok a amount "Deposit" hpos)
      · simp [BankAccount.addTransaction]
      · simp [BankAccount.addTransaction]
    obtain ⟨a1, hex, hb1, ht1⟩ := step
    rw [executeCommand_success inv _ _ hex]
    have hget1 := getAccount_setAccount_same inv.accounts i a1
    have hble : amount ≤ a1.balance := by rw [hb1]; linarith
    have hw := BankAccount.withdraw_ok a1 amount "UNDO: Revert Deposit" hpos hble
    have hundo : (BankCommand.deposit i amount).undo (setAccount inv.accounts i a1) =
        (setAccount (setAccount inv.accounts i a1) i
          (({ a1 with balance := a1.balance - amount }).addTransaction .WITHDRAW amount
            "UNDO: Revert Deposit"), none) := by
      simpa [BankCommand.undo] using
        modifyAccount_ok (setAccount inv.accounts i a1) i a1 _ _ hget1 hw
    rw [undoLastCommand_cons_ok ⟨setAccount inv.accounts i a1,
        BankCommand.deposit i amount :: inv.history⟩ _ inv.history _ rfl hundo]
    refine ⟨rfl, rfl, _, getAccount_setAccount_same _ _ _, ?_, ?_⟩
    · simp [BankAccount.addTransaction]
      rw [hb1]
      ring
    · simp [BankAccount.addTransaction, ht1]
  · intro hle
    have step : ∃ a1, (BankCommand.withdraw i amount).execute inv.accounts =
        (setAccount inv.accounts i a1, none) ∧
        a1.balance = a.balance - amount ∧
        a1.transactions.length = a.transactions.length + 1 := by
      refine ⟨({ a with balance := a.balance - amount }).addTransaction .WITHDRAW amount
        "Withdraw", ?_, ?_, ?_⟩
      · simpa [BankCommand.execute] using
          modifyAccount_ok inv.accounts i a _ _ ha
            (BankAccount.withdraw_ok a amount "Withdraw" hpos hle)
      · simp [BankAccount.addTransaction]
      · simp [BankAccount.addTransaction]
    obtain ⟨a1, hex, hb1, ht1⟩ := step
    rw [executeCommand_success inv _ _ hex]
    have hget1 := getAccount_setAccount_same inv.accounts i a1
    have hd := BankAccount.deposit_ok a1 amount "UNDO: Revert Withdraw" hpos
    have hundo : (BankCommand.withdraw i amount).undo (setAccount inv.accounts i a1) =
        (setAccount (setAccount inv.accounts i a1) i
          (({ a1 with balance := a1.balance + amount }).addTransaction .DEPOSIT amount
            "UNDO: Revert Withdraw"), none) := by
      simpa [BankCommand.undo] using
        modifyAccount_ok (setAccount inv.accounts i a1) i a1 _ _ hget1 hd
    rw [undoLastCommand_cons_ok ⟨setAccount inv.accounts i a1,
        BankCommand.withdraw i amount :: inv.history⟩ _ inv.history _ rfl hundo]
    refine ⟨rfl, rfl, _, getAccount_setAccount_same _ _ _, ?_, ?_⟩
    · simp [BankAccount.addTransaction]
      rw [hb1]
      ring
    · simp [BankAccount.addTransaction, ht1]

/-- C7 witness: on a balance-10 account, deposit 7 then undo and
withdraw 7 then undo both restore balance 10 and add two transactions. -/
theorem op_then_undo_roundtrip_C7_witness :
    (((invW3.executeCommand (BankCommand.deposit "a" 7)).1.undoLastCommand.2 = none ∧
      ((invW3.executeCommand (BankCommand.deposit "a" 7)).1.undoLastCommand.1).history
        = invW3.history ∧
      ∃ a2, getAccount
          ((invW3.executeCommand
            (BankCommand.deposit "a" 7)).1.undoLastCommand.1).accounts "a" = some a2 ∧
        a2.balance = accA.balance ∧
        a2.transactions.length = accA.transactions.length + 2)) ∧
    (((invW3.executeCommand (BankCommand.withdraw "a" 7)).1.undoLastCommand.2 = none ∧
      ((invW3.executeCommand (BankCommand.withdraw "a" 7)).1.undoLastCommand.1).history
        = invW3.history ∧
      ∃ a2, getAccount
          ((invW3.executeCommand
            (BankCommand.withdraw "a" 7)).1.undoLastCommand.1).accounts "a" = some a2 ∧
        a2.balance = accA.balance ∧
        a2.transactions.length = accA.transactions.length + 2)) := by
  constructor
  · exact (op_then_undo_roundtrip_C7 invW3 "a" accA 7 (by decide) (by norm_num)).1
      (by decide)
  · exact (op_then_undo_roundtrip_C7 invW3 "a" accA 7 (by decide) (by norm_num)).2
      (by decide)

/-- C7 counterexample: on an account created with balance −1, executing a
deposit of 5 and then undoLast does not restore the pre-operation balance:
the reversing withdraw is rejected, the balance stays at 4 with a single
(not two) appended transaction, and an error is reported. -/
theorem deposit_undo_counterexample_C7 :
    ((invC7.executeCommand (BankCommand.deposit "a" 5)).1.undoLastCommand.2 =
      some (BankError.InsufficientFunds 4 5)) ∧
    Option.map BankAccount.balance
      (getAccount ((invC7.executeCommand
        (BankCommand.deposit "a" 5)).1.undoLastCommand.1).accounts "a") = some 4 ∧
    Option.map (fun x => x.transactions.length)
      (getAccount ((invC7.executeCommand
        (BankCommand.deposit "a" 5)).1.undoLastCommand.1).accounts "a") = some 1 := by
  have hb : ((-1 : ℚ) + 5) = 4 := by norm_num
  have h1 : ¬ ((5 : ℚ) ≤ 0) := by norm_num
  have h2 : ((4 : ℚ) < 5) := by norm_num
  refine ⟨?_, ?_, ?_⟩ <;>
    simp [invC7, BankInvoker.executeCommand, BankInvoker.undoLastCommand,
      BankCommand.execute, BankCommand.undo, modifyAccount, getAccount, setAccount,
      BankAccount.new, BankAccount.deposit, BankAccount.withdraw,
      BankAccount.addTransaction, hb, h1, h2]

/-- C6 witness: a history whose top is a deposit of 50 over an account
holding only 20 rejects the undo with `InsufficientFunds`, leaving the
invoker (accounts and history) untouched. -/
theorem undo_failure_restores_C6_witness :
    invC6.undoLastCommand = (invC6, some (BankError.InsufficientFunds 20 50)) ∧
    (BankCommand.deposit "a" 50).undo invC6.accounts =
      (invC6.accounts, some (BankError.InsufficientFunds 20 50)) := by
  constructor
  · exact undo_failure_restores_C6.1 invC6 (BankCommand.deposit "a" 50) []
      (BankError.InsufficientFunds 20 50) rfl (by decide)
  · exact undo_failure_restores_C6.2 invC6.accounts "a"
      (BankAccount.new "a" "Al" AccountType.CHECKING 20) 50 (by decide)
      (by norm_num) (by decide)

/-- C8: after one `applyInterestToAll`, a savings (accruing) account with
positive balance `b` gains exactly `b × 0.03` and appends exactly one
interest transaction; a checking (non-accruing) account is left completely
unchanged (no balance change, no transaction); and the undo history is
untouched, so the accrual cannot be reversed by `undoLastCommand`.
The strategy hypothesis records the constructor's assignment (savings
strategy exactly for savings accounts). -/
theorem accrue_interest_C8 (inv : BankInvoker) (i : String) (a : BankAccount)
    (ha : getAccount inv.accounts i = some a)
    (hcons : a.interestStrategy =
      (if a.type = AccountType.SAVINGS then InterestStrategy.savings
       else InterestStrategy.checking)) :
    inv.applyInterestToAll.history = inv.history ∧
    (a.type = AccountType.SAVINGS → 0 < a.balance →
      ∃ a', getAccount inv.applyInterestToAll.accounts i = some a' ∧
        a'.balance = a.balance + a.balance * savingsRate ∧
        a'.transactions = a.transactions ++
          [⟨a.id, .INTEREST, a.balance * savingsRate, "Interest Credited"⟩]) ∧
    (a.type = AccountType.CHECKING →
      getAccount inv.applyInterestToAll.accounts i = some a) := by
  refine ⟨rfl, ?_, ?_⟩
  · intro htype hpos
    rw [htype] at hcons
    simp only [if_pos rfl] at hcons
    have hcalc : a.interestStrategy.calculateInterest a.balance =
        a.balance * savingsRate := by
      rw [hcons]
      rfl
    have hps : 0 < a.interestStrategy.calculateInterest a.balance := by
      rw [hcalc]
      have : 0 < savingsRate := by norm_num [savingsRate]
      exact mul_pos hpos this
    refine ⟨a.applyInterest.1, ?_, ?_, ?_⟩
    · show getAccount (inv.accounts.map (fun p => (p.1, p.2.applyInterest.1))) i = _
      rw [getAccount_mapInterest, ha]
      rfl
    · rw [BankAccount.applyInterest_pos a hps]
      simp [BankAccount.addTransaction, hcalc]
    · rw [BankAccount.applyInterest_pos a hps]
      simp [BankAccount.addTransaction, hcalc]
  · intro htype
    rw [htype] at hcons
    simp only [reduceCtorEq, if_neg] at hcons
    have hz : a.interestStrategy.calculateInterest a.balance = 0 := by
      rw [hcons]
      rfl
    have hnp : ¬ 0 < a.interestStrategy.calculateInterest a.balance := by
      rw [hz]
      norm_num
    show getAccount (inv.accounts.map (fun p => (p.1, p.2.applyInterest.1))) i = _
    rw [getAccount_mapInterest, ha]
    simp [BankAccount.applyInterest_nonpos a hnp]

/-- C8 witness: a savings account holding 1000 gains exactly 30 with one
interest transaction, the checking account holding 500 is untouched, and
the history stack stays empty. -/
theorem accrue_interest_C8_witness :
    invC8.applyInterestToAll.history = invC8.history ∧
    (∃ a', getAccount invC8.applyInterestToAll.accounts "s" = some a' ∧
      a'.balance = 1030 ∧
      a'.transactions =
        [⟨"s", .INTEREST, 30, "Interest Credited"⟩]) ∧
    getAccount invC8.applyInterestToAll.accounts "c" =
      some (BankAccount.new "c" "Chk" AccountType.CHECKING 500) := by
  have hs := accrue_interest_C8 invC8 "s"
    (BankAccount.new "s" "Sav" AccountType.SAVINGS 1000) (by decide) (by decide)
  have hc := accrue_interest_C8 invC8 "c"
    (BankAccount.new "c" "Chk" AccountType.CHECKING 500) (by decide) (by decide)
  refine ⟨hs.1, ?_, hc.2.2 rfl⟩
  obtain ⟨a', hget, hbal, htx⟩ := hs.2.1 rfl (by norm_num [BankAccount.new])
  refine ⟨a', hget, ?_, ?_⟩
  · rw [hbal]
    norm_num [BankAccount.new, savingsRate]
  · rw [htx]
    norm_num [BankAccount.new, savingsRate]

/-- C10: every successfully applied transfer appends a `WITHDRAW`-kind
transaction to the source and a `DEPOSIT`-kind transaction to the
destination (direction visible only in the description text), and no
reachable invoker state contains any transaction of kind `TRANSFER_IN`
or `TRANSFER_OUT`. -/
theorem transfer_tx_kinds_C10 :
    (∀ (accs : AccountMap) (fromId toId : String) (ax ay : BankAccount)
        (amount : ℚ),
      getAccount accs fromId = some ax → getAccount accs toId = some ay →
      fromId ≠ toId → 0 < amount → amount ≤ ax.balance →
      ∃ ax' ay',
        getAccount ((BankCommand.transfer fromId toId amount).execute accs).1 fromId
          = some ax' ∧
        getAccount ((BankCommand.transfer fromId toId amount).execute accs).1 toId
          = some ay' ∧
        ax'.transactions = ax.transactions ++
          [⟨ax.id, TxType.WITHDRAW, amount, "Transfer to " ++ ay.name⟩] ∧
        ay'.transactions = ay.transactions ++
          [⟨ay.id, TxType.DEPOSIT, amount, "Transfer from " ++ ax.name⟩]) ∧
    (∀ inv : BankInvoker, InvReach inv → NoTransferTxMap inv.accounts) := by
  constructor
  · intro accs fromId toId ax ay amount hx hy hne hpos hle
    rw [transfer_execute_ok accs fromId toId ax ay amount hx hy hne hpos hle]
    refine ⟨(({ ax with balance := ax.balance - amount }).addTransaction .WITHDRAW
        amount ("Transfer to " ++ ay.name)),
      (({ ay with balance := ay.balance + amount }).addTransaction .DEPOSIT amount
        ("Transfer from " ++ ax.name)), ?_, ?_, ?_, ?_⟩
    · rw [getAccount_setAccount_other _ toId fromId _ (Ne.symm hne)]
      exact getAccount_setAccount_same _ _ _
    · exact getAccount_setAccount_same _ _ _
    · simp [BankAccount.addTransaction]
    · simp [BankAccount.addTransaction]
  · intro inv hreach
    induction hreach with
    | init => intro p hp; simp [BankInvoker.empty] at hp
    | create inv id name type b h ih =>
      refine NoTransferTxMap_setAccount inv.accounts id _ ih ?_
      intro t ht
      simp [BankAccount.new] at ht
    | exec inv cmd h ih =>
      rw [executeCommand_accounts inv cmd]
      exact NoTransferTxMap_execute cmd inv.accounts ih
    | undo inv h ih =>
      rcases undoLast_accounts inv with heq | ⟨cmd, _, heq⟩
      · rw [heq]; exact ih
      · rw [heq]; exact NoTransferTxMap_undo cmd inv.accounts ih
    | interest inv h ih =>
      exact NoTransferTxMap_interestAll inv.accounts ih

/-- C10 witness: the concrete successful transfer appends WITHDRAW/DEPOSIT
kinds, and a concrete reachable state has no transfer-kind transactions. -/
theorem transfer_tx_kinds_C10_witness :
    (∃ ax' ay',
      getAccount ((BankCommand.transfer "x" "y" 30).execute mapXY).1 "x" = some ax' ∧
      getAccount ((BankCommand.transfer "x" "y" 30).execute mapXY).1 "y" = some ay' ∧
      ax'.transactions = accX.transactions ++
        [⟨accX.id, TxType.WITHDRAW, 30, "Transfer to " ++ accY.name⟩] ∧
      ay'.transactions = accY.transactions ++
        [⟨accY.id, TxType.DEPOSIT, 30, "Transfer from " ++ accX.name⟩]) ∧
    NoTransferTxMap invW2.accounts := by
  constructor
  · exact transfer_tx_kinds_C10.1 mapXY "x" "y" accX accY 30 (by decide) (by decide)
      (by decide) (by norm_num) (by decide)
  · exact transfer_tx_kinds_C10.2 invW2
      (InvReach.exec invW1 (BankCommand.deposit "a" 100)
        (InvReach.create BankInvoker.empty "a" "Ann" AccountType.SAVINGS 50
          InvReach.init))

end Bank
